import Mathlib

/-!
# Verification of the Readwise-to-Slack highlight bot

Shallow embedding of `src/readwise_to_slack.py` (class `ReadwiseSlackBot`).

Modelling conventions:
* Python dictionaries for highlights/books become structures with `Option`
  fields; `dict.get(key, default)` becomes `Option.getD`.
* A `datetime` value is modelled at day granularity by `PyDateTime`:
  `year`/`month` are the calendar fields the code reads, `epochDay` is the
  day ordinal, so Python's `(now - d).days` becomes
  `now.epochDay - d.epochDay`.  The string field `created_at` is modelled by
  its parse outcome: `none` stands for a missing *or* unparsable timestamp
  (both take the same branch everywhere in the source).
* Network interaction is modelled by the sequence of responses the server
  returns to the successive requests the client issues: `requests.get` /
  `requests.post` consume the next element; an exhausted sequence stands for
  a connection failure (the server never answers).
* `random.choice(seq)` is modelled by an injected index `i`, picking
  `seq[i % len(seq)]`: a uniform `i` gives the uniform choice the code makes.
-/

/-- Day-granularity model of a parsed Python `datetime`. -/
structure PyDateTime where
  year : Int
  month : Nat
  epochDay : Int
deriving Repr, DecidableEq

/-- A tag dictionary: the code only reads `tag.get('name')`. -/
structure Tag where
  name : Option String
deriving Repr, DecidableEq

/-- A highlight dictionary, with the fields the code reads. -/
structure Highlight where
  id : Option Int
  book_id : Option Int
  text : Option String
  note : Option String
  created_at : Option PyDateTime
  location : Option Int
  tags : List Tag
deriving Repr, DecidableEq

/-- A book dictionary as returned by the books endpoint. -/
structure Book where
  id : Int
  title : String
  author : Option String
  category : Option String
  source_url : Option String
  cover_image_url : Option String
deriving Repr, DecidableEq

/-- The `--date-filter` CLI choice (`choices=['recent', 'old']`). -/
inductive DateFilter
  | recent
  | old
deriving Repr, DecidableEq

/-- Python `(now - d).days` at day granularity. -/
def timedeltaDays (now d : PyDateTime) : Int :=
  now.epochDay - d.epochDay

/-- The per-highlight test of `filter_highlights_by_date` (lines 314-334):
missing or unparsable `created_at` is skipped; `recent` keeps
`(now - date_obj).days <= 730`; `old` keeps `> 730`. -/
def dateFilterKeeps (f : DateFilter) (now : PyDateTime) (h : Highlight) : Bool :=
  match h.created_at with
  | none => false
  | some d =>
    match f with
    | .recent => decide (timedeltaDays now d ≤ 730)
    | .old => decide (730 < timedeltaDays now d)

/-- Function `filter_highlights_by_date` (lines 306-337): with no configured filter the
input is returned unchanged; otherwise the loop appends exactly the kept
highlights in order. -/
def filter_highlights_by_date (date_filter : Option DateFilter) (now : PyDateTime)
    (highlights : List Highlight) : List Highlight :=
  match date_filter with
  | none => highlights
  | some f => highlights.filter (dateFilterKeeps f now)

/-- Python `str.strip()`: drop whitespace from both ends (written over the
code-point list so that it evaluates by kernel reduction). -/
def pyStrip (s : String) : String :=
  String.mk
    (((s.data.dropWhile Char.isWhitespace).reverse.dropWhile
      Char.isWhitespace).reverse)

/-- The expression `highlight.get("text", "").strip()` of line 402. -/
def highlightTrimmedText (h : Highlight) : String :=
  pyStrip (h.text.getD "")

/-- Function `filter_highlights_by_quality` (lines 398-407): keep highlights whose
stripped text has length at least 20. -/
def filter_highlights_by_quality (highlights : List Highlight) : List Highlight :=
  highlights.filter (fun h => decide (20 ≤ (highlightTrimmedText h).length))

/-- The text preparation of `format_highlight_for_slack` (lines 116-121),
truncation step only: text longer than 1000 characters is cut to 997
characters plus `"..."`. -/
def truncate_long_text (text : String) : String :=
  if 1000 < text.length then text.take 997 ++ "..." else text

/-- Lines 116-121 in full: fetch the text with default
`"No text available"`, strip it, then truncate. -/
def format_text (highlight_text : Option String) : String :=
  truncate_long_text (pyStrip (highlight_text.getD "No text available"))

/-- One server response to one HTTP request, in the response-sequence model:
the client's successive `requests.get` calls consume successive elements. -/
inductive PageResp (α : Type)
  | ok (results : List α) (next : Option String)
  | failStatus (code : Nat)
  | connError
deriving Repr, DecidableEq

/-- Python truthiness-guarded limit test of line 64,
`if limit and len(all_highlights) >= limit:`. -/
def limitHit (limit : Option Nat) (n : Nat) : Bool :=
  match limit with
  | none => false
  | some l => decide (l ≠ 0) && decide (l ≤ n)

/-- The `while url:` loop of `get_readwise_highlights` (lines 45-76) over the
response sequence.  An exhausted sequence stands for a request the server
never answers (a connection failure); any raised status or connection
failure takes the `except` branch and returns `[]`. -/
def get_readwise_highlightsGo (limit : Option Nat) (acc : List Highlight) :
    List (PageResp Highlight) → List Highlight
  | [] => []
  | .connError :: _ => []
  | .failStatus _ :: _ => []
  | .ok results next :: rest =>
    let acc2 := acc ++ results
    if limitHit limit acc2.length then acc2.take (limit.getD 0)
    else
      match next with
      | none => acc2
      | some _ => get_readwise_highlightsGo limit acc2 rest

/-- Function `get_readwise_highlights` (lines 37-76). -/
def get_readwise_highlights (responses : List (PageResp Highlight))
    (limit : Option Nat) : List Highlight :=
  get_readwise_highlightsGo limit [] responses

/-- Insertion-ordered dictionary update, `all_books[book["id"]] = book["title"]`
(line 96): an existing key keeps its position and gets the new value, a new
key is appended. -/
def dictInsert (d : List (Int × String)) (k : Int) (v : String) :
    List (Int × String) :=
  if d.any (fun p => decide (p.1 = k)) then
    d.map (fun p => if p.1 = k then (p.1, v) else p)
  else d ++ [(k, v)]

/-- The `for book in books:` loop of lines 95-96. -/
def insertBooks (d : List (Int × String)) (books : List Book) :
    List (Int × String) :=
  books.foldl (fun d b => dictInsert d b.id b.title) d

/-- The `while url:` loop of `get_readwise_books` (lines 86-109): note the
dictionary stores only `book["title"]` per id. -/
def get_readwise_booksGo (acc : List (Int × String)) :
    List (PageResp Book) → List (Int × String)
  | [] => []
  | .connError :: _ => []
  | .failStatus _ :: _ => []
  | .ok results next :: rest =>
    let acc2 := insertBooks acc results
    match next with
    | none => acc2
    | some _ => get_readwise_booksGo acc2 rest

/-- Function `get_readwise_books` (lines 78-112): returns the id-to-title dictionary. -/
def get_readwise_books (responses : List (PageResp Book)) : List (Int × String) :=
  get_readwise_booksGo [] responses

/-- One server response to the single webhook POST of `send_to_slack`. -/
inductive PostResp
  | success
  | failStatus (code : Nat)
  | connError
deriving Repr, DecidableEq

/-- Function `send_to_slack` (lines 288-304): a single `requests.post`, so only the
first response is consumed; success means a 2xx, anything else (or no
response at all) is caught and yields `False`. -/
def send_to_slack : List PostResp → Bool
  | .success :: _ => true
  | _ => false

/-- The expression `books.get(book_id, \x7b\x7d)` of line 489: the dictionary value is a `str`
(the title) when found, the `{}` default otherwise; `book_id` is itself the
result of `random_highlight.get("book_id")`. -/
inductive PyLookup
  | found (title : String)
  | missing
deriving Repr, DecidableEq

/-- Line 489. -/
def booksGet (books : List (Int × String)) (book_id : Option Int) : PyLookup :=
  match book_id with
  | none => .missing
  | some i =>
    match books.find? (fun p => decide (p.1 = i)) with
    | some p => .found p.2
    | none => .missing

/-- Line 490, `book_title = book_info.get("title", "Unknown Book")`: on the
`{}` default it yields the placeholder; on a found book the stored value is a
`str`, and `str` has no method `get`, so `AttributeError` is raised. -/
def bookTitleLookup : PyLookup → Except String String
  | .missing => .ok "Unknown Book"
  | .found _ => .error "AttributeError: str object has no attribute get"

/-- Lines 359-360: quarter-year bucket key, `f"{date_obj.year}-Q{quarter}"`
with `quarter = (date_obj.month - 1) // 3 + 1`. -/
def bucketKey (d : PyDateTime) : String :=
  toString d.year ++ "-Q" ++ toString ((d.month - 1) / 3 + 1)

/-- The bucket a highlight lands in (lines 352-370): its quarter key when the
timestamp parses, the `'no-date'` bucket when it is missing or unparsable. -/
def highlightBucketKey (h : Highlight) : String :=
  match h.created_at with
  | some d => bucketKey d
  | none => "no-date"

/-- Appending one highlight to its bucket in the insertion-ordered
dictionary `time_buckets` (lines 362-370). -/
def addToBucket (buckets : List (String × List Highlight)) (key : String)
    (h : Highlight) : List (String × List Highlight) :=
  match buckets with
  | [] => [(key, [h])]
  | (k, hs) :: rest =>
    if k = key then (k, hs ++ [h]) :: rest
    else (k, hs) :: addToBucket rest key h

/-- The bucket-building loop of `age_normalized_random_selection`
(lines 349-370). -/
def build_time_buckets (highlights : List Highlight) :
    List (String × List Highlight) :=
  highlights.foldl (fun b h => addToBucket b (highlightBucketKey h) h) []

/-- Python `random.choice(seq)` with an injected index: picks `seq[i % len(seq)]`,
`none` on an empty sequence. -/
def listChoice {α : Type} (l : List α) (i : Nat) : Option α :=
  l.get? (i % l.length)

/-- Function `age_normalized_random_selection` (lines 339-397): `None` on an empty
input; otherwise bucket the highlights, pick a bucket key uniformly
(index `bucketIdx` over the insertion-ordered keys), then pick a highlight
uniformly inside that bucket (index `itemIdx`); the `if not time_buckets`
fallback (line 372) picks uniformly from the raw list. -/
def age_normalized_random_selection (highlights : List Highlight)
    (bucketIdx itemIdx fallbackIdx : Nat) : Option Highlight :=
  if highlights.isEmpty then none
  else
    let time_buckets := build_time_buckets highlights
    if time_buckets.isEmpty then listChoice highlights fallbackIdx
    else
      match listChoice time_buckets bucketIdx with
      | none => none
      | some kb => listChoice kb.2 itemIdx

/-- The bot's configuration: the `--date-filter` and `--age-random` flags. -/
structure RunConfig where
  date_filter : Option DateFilter
  age_random : Bool
deriving Repr, DecidableEq

/-- The highlight list the selection stage draws from: the fetched list put
through the date filter (when configured, lines 470-471) and then the
quality filter (line 477).  No further stage exists between the quality
filter and the selection. -/
def pipeline_survivors (cfg : RunConfig) (now : PyDateTime)
    (highlights : List Highlight) : List Highlight :=
  let highlights2 :=
    match cfg.date_filter with
    | some _ => filter_highlights_by_date cfg.date_filter now highlights
    | none => highlights
  filter_highlights_by_quality highlights2

/-- Function `select_and_send_random_highlight` (lines 454-512), with the run's
external interactions injected: the two response sequences, the reference
time, the random indices and the webhook response sequence.
`Except.error` models an exception escaping the method (caught only in
`main`, which exits 1); `Except.ok b` is its boolean return value. -/
def select_and_send_random_highlight (cfg : RunConfig)
    (hResponses : List (PageResp Highlight)) (bResponses : List (PageResp Book))
    (now : PyDateTime) (bucketIdx itemIdx choiceIdx : Nat)
    (postResponses : List PostResp) : Except String Bool :=
  let highlights := get_readwise_highlights hResponses none
  if highlights.isEmpty then .ok false
  else
    let books := get_readwise_books bResponses
    let highlights2 :=
      match cfg.date_filter with
      | some _ => filter_highlights_by_date cfg.date_filter now highlights
      | none => highlights
    if cfg.date_filter.isSome && highlights2.isEmpty then .ok false
    else
      let quality_highlights := filter_highlights_by_quality highlights2
      if quality_highlights.isEmpty then .ok false
      else
        let random_highlight :=
          if cfg.age_random then
            age_normalized_random_selection quality_highlights bucketIdx itemIdx choiceIdx
          else
            listChoice quality_highlights choiceIdx
        match random_highlight with
        | none => .error "AttributeError: NoneType object has no attribute get"
        | some h =>
          let book_info := booksGet books h.book_id
          match bookTitleLookup book_info with
          | .error e => .error e
          | .ok _book_title =>
            let _message_text := format_text h.text
            .ok (send_to_slack postResponses)

/-- Case-insensitive substring test over code points (both sides lowered). -/
def lowerList (s : String) : List Char :=
  s.toList.map Char.toLower

/-- Whether `needle` occurs case-insensitively in `hay`. -/
def containsPhraseCI (hay needle : String) : Bool :=
  decide (lowerList needle <:+: lowerList hay)

/-- Follows the spec's words — the source has no noise filter, this is the
spec's text/note criterion for comparison: the noise filter "excludes
[a highlight] if the concatenation of its text and note contains the phrase
'by Readwise Team' case-insensitively". -/
def spec_noise_excluded (h : Highlight) : Bool :=
  containsPhraseCI ((h.text.getD "") ++ (h.note.getD "")) "by Readwise Team"

/-- Follows the spec's words: the retryable statuses 500/502/503/504. -/
def spec_retryable (code : Nat) : Bool :=
  decide (code = 500) || decide (code = 502) || decide (code = 503) ||
    decide (code = 504)

/-- Follows the spec's words — the source performs no retry, this is the
spec's policy for comparison: one page request, retried on connection
failures and retryable statuses while attempts remain, consuming one server
response per attempt; yields the page and the unconsumed responses, or
`none` when attempts are exhausted or a non-retryable status arrives. -/
def spec_get_with_retry : Nat → List (PageResp Highlight) →
    Option ((List Highlight × Option String) × List (PageResp Highlight))
  | 0, _ => none
  | _ + 1, [] => none
  | attempts + 1, r :: rest =>
    match r with
    | .ok results next => some ((results, next), rest)
    | .connError => spec_get_with_retry attempts rest
    | .failStatus c =>
      if spec_retryable c then spec_get_with_retry attempts rest else none

/-- Follows the spec's words: the webhook POST under the same retry policy. -/
def spec_post_with_retry : Nat → List PostResp → Bool
  | 0, _ => false
  | _ + 1, [] => false
  | attempts + 1, r :: rest =>
    match r with
    | .success => true
    | .connError => spec_post_with_retry attempts rest
    | .failStatus c =>
      if spec_retryable c then spec_post_with_retry attempts rest else false

/-- The pagination loop in the cursor-following view, for the termination
claim: the server maps each requested URL to a response, `fuel` bounds how
many iterations we observe.  `none` means the `while url:` loop was still
running after `fuel` pages — the source exits the loop only through a `next`
of `None` or an exception (no limit is passed by the orchestrator). -/
def paginate (server : String → PageResp Highlight) :
    Nat → String → List Highlight → Option (List Highlight)
  | 0, _, _ => none
  | fuel + 1, url, acc =>
    match server url with
    | .connError => some []
    | .failStatus _ => some []
    | .ok results next =>
      let acc2 := acc ++ results
      match next with
      | none => some acc2
      | some u => paginate server fuel u acc2

/-- A server that answers every page request with an empty page and echoes
the requested URL back as the `next` cursor. -/
def echoServer : String → PageResp Highlight :=
  fun url => .ok [] (some url)

/-- The pagination loop run from the initial highlights URL terminates
within some number of pages. -/
def paginateTerminates (server : String → PageResp Highlight) : Prop :=
  ∃ fuel, (paginate server fuel "https://readwise.io/api/v2/highlights/" []).isSome

theorem string_length_append (s t : String) :
    (s ++ t).length = s.length + t.length := by
  rw [← String.length_data, String.data_append, List.length_append,
    String.length_data, String.length_data]

theorem string_length_take (s : String) (n : Nat) :
    (s.take n).length = min n s.length := by
  rw [← String.length_data, String.data_take, List.length_take,
    String.length_data]

/-- C7: the formatter truncates the highlight text before any other
rendering: text longer than 1000 characters is cut at the 997th character
with the ellipsis marker appended, giving exactly 1000 characters (so a
1050-character input yields 1000 characters ending in the marker), while
text of at most 1000 characters passes through untruncated. -/
theorem formatter_truncation :
    (∀ t : String, 1000 < t.length →
      truncate_long_text t = t.take 997 ++ "..." ∧
        (truncate_long_text t).length = 1000) ∧
    (∀ t : String, t.length ≤ 1000 → truncate_long_text t = t) ∧
    (String.mk (List.replicate 1050 'a')).length = 1050 ∧
    truncate_long_text (String.mk (List.replicate 1050 'a')) =
      String.mk (List.replicate 997 'a') ++ "..." ∧
    (truncate_long_text (String.mk (List.replicate 1050 'a'))).length = 1000 := by
  have hlong : ∀ t : String, 1000 < t.length →
      truncate_long_text t = t.take 997 ++ "..." ∧
        (truncate_long_text t).length = 1000 := by
    intro t ht
    have heq : truncate_long_text t = t.take 997 ++ "..." := by
      simp [truncate_long_text, ht]
    refine ⟨heq, ?_⟩
    rw [heq, string_length_append, string_length_take]
    have h3 : ("...".length) = 3 := rfl
    omega
  have hdemo : (String.mk (List.replicate 1050 'a')).length = 1050 := by
    rw [String.length_mk, List.length_replicate]
  refine ⟨hlong, ?_, hdemo, ?_, ?_⟩
  · intro t ht
    have hnot : ¬ 1000 < t.length := by omega
    simp [truncate_long_text, hnot]
  · have h1 := (hlong _ (by rw [hdemo]; omega)).1
    rw [h1, String.take_eq]
    have h2 : (String.mk (List.replicate 1050 'a')).data.take 997 =
        List.replicate 997 'a' := by
      show (List.replicate 1050 'a').take 997 = List.replicate 997 'a'
      rw [List.take_replicate]
      norm_num
    rw [h2]
  · rw [(hlong _ (by rw [hdemo]; omega)).2]

/-- C8: the quality filter excludes exactly the highlights whose trimmed text
length is under 20 characters and retains (as the identical record) every
highlight whose trimmed text length is at least 20. -/
theorem quality_filter_exact :
    ∀ (hs : List Highlight) (h : Highlight),
      h ∈ filter_highlights_by_quality hs ↔
        h ∈ hs ∧ 20 ≤ (highlightTrimmedText h).length := by
  intro hs h
  simp [filter_highlights_by_quality, List.mem_filter]

/-- C10: both filter stages (the date filter under any policy and the quality
filter) return an order-preserving subsequence of their input: retained
elements are the identical records, in their original relative order, with
nothing duplicated or introduced. -/
theorem filter_stages_sublist :
    ∀ (date_filter : Option DateFilter) (now : PyDateTime) (hs : List Highlight),
      (filter_highlights_by_date date_filter now hs).Sublist hs ∧
        (filter_highlights_by_quality hs).Sublist hs := by
  intro date_filter now hs
  constructor
  · cases date_filter with
    | none => exact List.Sublist.refl hs
    | some f => exact List.filter_sublist hs
  · exact List.filter_sublist hs

/-- C4 (amended): no retry is performed.  Each page GET and the webhook POST
is issued exactly once: a connection failure or a raised status — retryable
per the spec (500/502/503/504) or not — immediately makes the highlights and
books fetches return empty and the webhook send return `false`; the
remaining server responses are never requested. -/
theorem no_retry_single_attempt :
    ∀ (code : Nat) (limit : Option Nat) (rest : List (PageResp Highlight))
      (restB : List (PageResp Book)) (restP : List PostResp),
      get_readwise_highlights (PageResp.failStatus code :: rest) limit = [] ∧
      get_readwise_highlights (PageResp.connError :: rest) limit = [] ∧
      get_readwise_books (PageResp.failStatus code :: restB) = [] ∧
      get_readwise_books (PageResp.connError :: restB) = [] ∧
      send_to_slack (PostResp.failStatus code :: restP) = false ∧
      send_to_slack (PostResp.connError :: restP) = false := by
  intro code limit rest restB restP
  refine ⟨rfl, rfl, rfl, rfl, rfl, rfl⟩

/-- The highlight of the single page used by the retry counterexample. -/
def retryDemoHighlight : Highlight :=
  { id := some 1, book_id := none,
    text := some "A perfectly substantial highlight text."
    note := none, created_at := none, location := none, tags := [] }

/-- The response sequence of the retry counterexample: the first attempt
fails with 503, the next server response would deliver the page. -/
def retryOracle : List (PageResp Highlight) :=
  [PageResp.failStatus 503, PageResp.ok [retryDemoHighlight] none]

/-- C4 counterexample: 503 is a retryable status and the spec's retry policy
would obtain the page (and a webhook success) on the second attempt, but the
code returns an empty fetch (and a failed send) without issuing any retry. -/
theorem no_retry_counterexample :
    spec_retryable 503 = true ∧
    get_readwise_highlights retryOracle none = [] ∧
    spec_get_with_retry 3 retryOracle = some (([retryDemoHighlight], none), []) ∧
    send_to_slack [PostResp.failStatus 503, PostResp.success] = false ∧
    spec_post_with_retry 3 [PostResp.failStatus 503, PostResp.success] = true := by
  refine ⟨rfl, rfl, rfl, rfl, rfl⟩

theorem dateFilterKeeps_recent_iff (now : PyDateTime) (h : Highlight) :
    dateFilterKeeps .recent now h = true ↔
      ∃ d, h.created_at = some d ∧ timedeltaDays now d ≤ 730 := by
  cases hc : h.created_at with
  | none => simp [dateFilterKeeps, hc]
  | some d => simp [dateFilterKeeps, hc]

theorem dateFilterKeeps_old_iff (now : PyDateTime) (h : Highlight) :
    dateFilterKeeps .old now h = true ↔
      ∃ d, h.created_at = some d ∧ 730 < timedeltaDays now d := by
  cases hc : h.created_at with
  | none => simp [dateFilterKeeps, hc]
  | some d => simp [dateFilterKeeps, hc]

/-- Every highlight is classified by exactly one of: kept by `recent`, kept
by `old`, or lacking a parsable timestamp. -/
theorem date_classify (now : PyDateTime) (h : Highlight) :
    (dateFilterKeeps .recent now h = true ∧ dateFilterKeeps .old now h = false ∧
        h.created_at.isNone = false) ∨
      (dateFilterKeeps .recent now h = false ∧ dateFilterKeeps .old now h = true ∧
        h.created_at.isNone = false) ∨
      (dateFilterKeeps .recent now h = false ∧ dateFilterKeeps .old now h = false ∧
        h.created_at.isNone = true) := by
  cases hc : h.created_at with
  | none => right; right; simp [dateFilterKeeps, hc]
  | some d =>
    by_cases hle : timedeltaDays now d ≤ 730
    · left
      refine ⟨by simp [dateFilterKeeps, hc]; omega,
        by simp [dateFilterKeeps, hc]; omega, by simp [hc]⟩
    · right; left
      refine ⟨by simp [dateFilterKeeps, hc]; omega,
        by simp [dateFilterKeeps, hc]; omega, by simp [hc]⟩

/-- Three mutually exclusive, jointly exhaustive boolean predicates split a
list into a permutation of it. -/
theorem filter_partition_perm {α : Type} (p q r : α → Bool)
    (htri : ∀ a, (p a = true ∧ q a = false ∧ r a = false) ∨
        (p a = false ∧ q a = true ∧ r a = false) ∨
        (p a = false ∧ q a = false ∧ r a = true)) :
    ∀ l : List α, (l.filter p ++ l.filter q ++ l.filter r).Perm l := by
  intro l
  induction l with
  | nil => simp
  | cons a t ih =>
    rcases htri a with ⟨h1, h2, h3⟩ | ⟨h1, h2, h3⟩ | ⟨h1, h2, h3⟩
    · simpa [List.filter_cons, h1, h2, h3] using ih.cons a
    · simp only [List.filter_cons, h1, h2, h3, Bool.false_eq_true, reduceIte]
      exact (List.perm_middle.append_right (t.filter r)).trans (ih.cons a)
    · simp only [List.filter_cons, h1, h2, h3, Bool.false_eq_true, reduceIte]
      exact List.perm_middle.trans (ih.cons a)

/-- C6: with no policy the date filter returns the input unchanged; `recent`
keeps exactly the highlights whose parsed timestamp is at most 730 days old,
`old` exactly those strictly older than 730 days; highlights with missing or
unparsable timestamps are dropped under either active policy, so for a fixed
input and reference time the `recent` and `old` results are disjoint and,
together with the dropped no-date highlights, form a permutation of the
input. -/
theorem date_filter_partition :
    ∀ (now : PyDateTime) (hs : List Highlight),
      filter_highlights_by_date none now hs = hs ∧
      (∀ h, h ∈ filter_highlights_by_date (some .recent) now hs ↔
          h ∈ hs ∧ ∃ d, h.created_at = some d ∧ timedeltaDays now d ≤ 730) ∧
      (∀ h, h ∈ filter_highlights_by_date (some .old) now hs ↔
          h ∈ hs ∧ ∃ d, h.created_at = some d ∧ 730 < timedeltaDays now d) ∧
      (∀ h, ¬(h ∈ filter_highlights_by_date (some .recent) now hs ∧
          h ∈ filter_highlights_by_date (some .old) now hs)) ∧
      (filter_highlights_by_date (some .recent) now hs ++
          filter_highlights_by_date (some .old) now hs ++
          hs.filter (fun h => h.created_at.isNone)).Perm hs := by
  intro now hs
  refine ⟨rfl, ?_, ?_, ?_, ?_⟩
  · intro h
    simp [filter_highlights_by_date, List.mem_filter,
      dateFilterKeeps_recent_iff]
  · intro h
    simp [filter_highlights_by_date, List.mem_filter, dateFilterKeeps_old_iff]
  · rintro h ⟨hr, ho⟩
    simp only [filter_highlights_by_date, List.mem_filter] at hr ho
    rcases (dateFilterKeeps_recent_iff now h).mp hr.2 with ⟨d, hd, hle⟩
    rcases (dateFilterKeeps_old_iff now h).mp ho.2 with ⟨d2, hd2, hgt⟩
    rw [hd] at hd2
    injection hd2 with hdd
    subst hdd
    omega
  · exact filter_partition_perm _ _ _ (date_classify now) hs

theorem listChoice_ne_nil {α : Type} {l : List α} {i : Nat} {x : α}
    (h : listChoice l i = some x) : l ≠ [] := by
  intro he
  subst he
  simp [listChoice] at h

theorem filter_date_nil (date_filter : Option DateFilter) (now : PyDateTime) :
    filter_highlights_by_date date_filter now [] = [] := by
  cases date_filter <;> rfl

theorem booksGet_nil (book_id : Option Int) : booksGet [] book_id = .missing := by
  cases book_id <;> rfl

/-- After the quality filter the run goes straight to selection and, when the
books dictionary is empty, straight on to the send step: the highlight the
injected index points at in the quality-filtered list is selected no matter
what its text, note or book author contain. -/
theorem run_reaches_send_of_books_empty :
    ∀ (cfg : RunConfig) (hResp : List (PageResp Highlight))
      (bResp : List (PageResp Book)) (now : PyDateTime) (c : Nat)
      (post : List PostResp) (h : Highlight),
      get_readwise_books bResp = [] →
      cfg.age_random = false →
      listChoice (pipeline_survivors cfg now (get_readwise_highlights hResp none)) c
        = some h →
      select_and_send_random_highlight cfg hResp bResp now 0 0 c post
        = Except.ok (send_to_slack post) := by
  intro cfg hResp bResp now c post h hbooks hage hsel
  obtain ⟨df, ar⟩ := cfg
  simp only at hage
  subst hage
  cases df with
  | none =>
    simp only [pipeline_survivors] at hsel
    have hq_ne : filter_highlights_by_quality (get_readwise_highlights hResp none) ≠ [] :=
      listChoice_ne_nil hsel
    have hh_ne : get_readwise_highlights hResp none ≠ [] := by
      intro he
      rw [he] at hq_ne
      exact hq_ne rfl
    simp only [select_and_send_random_highlight, List.isEmpty_eq_true, hh_ne,
      if_false, Option.isSome_none, Bool.false_and, Bool.false_eq_true, hq_ne,
      if_neg, hsel, hbooks, booksGet_nil, bookTitleLookup]
  | some f =>
    simp only [pipeline_survivors] at hsel
    have hq_ne : filter_highlights_by_quality
        (filter_highlights_by_date (some f) now (get_readwise_highlights hResp none)) ≠ [] :=
      listChoice_ne_nil hsel
    have h2_ne : filter_highlights_by_date (some f) now (get_readwise_highlights hResp none) ≠ [] := by
      intro he
      rw [he] at hq_ne
      exact hq_ne rfl
    have hh_ne : get_readwise_highlights hResp none ≠ [] := by
      intro he
      rw [he, filter_date_nil] at h2_ne
      exact h2_ne rfl
    simp only [select_and_send_random_highlight, List.isEmpty_eq_true, hh_ne,
      if_false, Option.isSome_some, Bool.true_and, h2_ne, Bool.false_eq_true,
      hq_ne, if_neg, hsel, hbooks, booksGet_nil, bookTitleLookup]

theorem get_readwise_highlightsGo_fault (fault : PageResp Highlight)
    (hfault : ∀ xs u, fault ≠ PageResp.ok xs u) :
    ∀ (pre : List (PageResp Highlight)) (acc : List Highlight)
      (rest : List (PageResp Highlight)),
      (∀ r ∈ pre, ∃ xs u, r = PageResp.ok xs (some u)) →
      get_readwise_highlightsGo none acc (pre ++ fault :: rest) = [] := by
  intro pre
  induction pre with
  | nil =>
    intro acc rest _
    cases fault with
    | ok xs u => exact absurd rfl (hfault xs u)
    | failStatus c => rfl
    | connError => rfl
  | cons r pre ih =>
    intro acc rest hpre
    rcases hpre r (List.mem_cons_self r pre) with ⟨xs, u, hr⟩
    subst hr
    simp only [List.cons_append, get_readwise_highlightsGo, limitHit,
      Bool.false_eq_true, if_false]
    exact ih _ rest (fun r hm => hpre r (List.mem_cons_of_mem _ hm))

theorem get_readwise_booksGo_fault (fault : PageResp Book)
    (hfault : ∀ bs u, fault ≠ PageResp.ok bs u) :
    ∀ (pre : List (PageResp Book)) (acc : List (Int × String))
      (rest : List (PageResp Book)),
      (∀ r ∈ pre, ∃ bs u, r = PageResp.ok bs (some u)) →
      get_readwise_booksGo acc (pre ++ fault :: rest) = [] := by
  intro pre
  induction pre with
  | nil =>
    intro acc rest _
    cases fault with
    | ok bs u => exact absurd rfl (hfault bs u)
    | failStatus c => rfl
    | connError => rfl
  | cons r pre ih =>
    intro acc rest hpre
    rcases hpre r (List.mem_cons_self r pre) with ⟨bs, u, hr⟩
    subst hr
    simp only [List.cons_append, get_readwise_booksGo]
    exact ih _ rest (fun r hm => hpre r (List.mem_cons_of_mem _ hm))

/-- C5: a fault (raised status or connection failure) on any page makes the
whole fetch of that resource return exactly the empty result, never a
partial accumulation; an empty highlights fetch makes the run return
failure, while a faulted (hence empty) books fetch still lets the run
proceed to the send step. -/
theorem fetch_fault_empty_and_fatality :
    ∀ (pre : List (PageResp Highlight)) (preB : List (PageResp Book))
      (rest : List (PageResp Highlight)) (restB : List (PageResp Book))
      (code codeB : Nat),
      (∀ r ∈ pre, ∃ xs u, r = PageResp.ok xs (some u)) →
      (∀ r ∈ preB, ∃ bs u, r = PageResp.ok bs (some u)) →
      get_readwise_highlights (pre ++ PageResp.failStatus code :: rest) none = [] ∧
      get_readwise_highlights (pre ++ PageResp.connError :: rest) none = [] ∧
      get_readwise_books (preB ++ PageResp.failStatus codeB :: restB) = [] ∧
      get_readwise_books (preB ++ PageResp.connError :: restB) = [] ∧
      (∀ cfg bResp now b i c post,
        select_and_send_random_highlight cfg
            (pre ++ PageResp.failStatus code :: rest) bResp now b i c post
          = Except.ok false) ∧
      (∀ cfg hResp now c post h,
        cfg.age_random = false →
        listChoice (pipeline_survivors cfg now
            (get_readwise_highlights hResp none)) c = some h →
        select_and_send_random_highlight cfg hResp
            (preB ++ PageResp.connError :: restB) now 0 0 c post
          = Except.ok (send_to_slack post)) := by
  intro pre preB rest restB code codeB hpre hpreB
  have hfail : get_readwise_highlights
      (pre ++ PageResp.failStatus code :: rest) none = [] :=
    get_readwise_highlightsGo_fault (PageResp.failStatus code)
      (fun xs u => by simp) pre [] rest hpre
  have hconnB : get_readwise_books (preB ++ PageResp.connError :: restB) = [] :=
    get_readwise_booksGo_fault PageResp.connError
      (fun bs u => by simp) preB [] restB hpreB
  refine ⟨hfail, ?_, ?_, hconnB, ?_, ?_⟩
  · exact get_readwise_highlightsGo_fault PageResp.connError
      (fun xs u => by simp) pre [] rest hpre
  · exact get_readwise_booksGo_fault (PageResp.failStatus codeB)
      (fun bs u => by simp) preB [] restB hpreB
  · intro cfg bResp now b i c post
    simp [select_and_send_random_highlight, hfail]
  · intro cfg hResp now c post h hage hsel
    exact run_reaches_send_of_books_empty cfg hResp
      (preB ++ PageResp.connError :: restB) now c post h hconnB hage hsel

/-- Concrete instantiation of `fetch_fault_empty_and_fatality`: a first page
that continues, then a faulting page. -/
theorem fetch_fault_empty_and_fatality_witness :
    get_readwise_highlights
        ([PageResp.ok [] (some "n")] ++ PageResp.failStatus 503 :: []) none = [] ∧
      get_readwise_highlights
        ([PageResp.ok [] (some "n")] ++ PageResp.connError :: []) none = [] ∧
      get_readwise_books
        ([PageResp.ok [] (some "m")] ++ PageResp.failStatus 404 :: []) = [] ∧
      get_readwise_books
        ([PageResp.ok [] (some "m")] ++ PageResp.connError :: []) = [] ∧
      (∀ cfg bResp now b i c post,
        select_and_send_random_highlight cfg
            ([PageResp.ok [] (some "n")] ++ PageResp.failStatus 503 :: [])
            bResp now b i c post = Except.ok false) ∧
      (∀ cfg hResp now c post h,
        cfg.age_random = false →
        listChoice (pipeline_survivors cfg now
            (get_readwise_highlights hResp none)) c = some h →
        select_and_send_random_highlight cfg hResp
            ([PageResp.ok [] (some "m")] ++ PageResp.connError :: [])
            now 0 0 c post = Except.ok (send_to_slack post)) :=
  fetch_fault_empty_and_fatality [PageResp.ok [] (some "n")]
    [PageResp.ok [] (some "m")] [] [] 503 404
    (fun r hr => by
      simp only [List.mem_singleton] at hr
      subst hr
      exact ⟨[], "n", rfl⟩)
    (fun r hr => by
      simp only [List.mem_singleton] at hr
      subst hr
      exact ⟨[], "m", rfl⟩)

theorem paginate_echo_none :
    ∀ (fuel : Nat) (url : String) (acc : List Highlight),
      paginate echoServer fuel url acc = none := by
  intro fuel
  induction fuel with
  | zero =>
    intro url acc
    rfl
  | succ n ih =>
    intro url acc
    simp only [paginate, echoServer]
    exact ih url (acc ++ [])

/-- C9 counterexample: against a server that echoes the requested URL back
as the `next` cursor, the pagination loop never terminates — no amount of
fuel completes it, so a repeated identical cursor is *not* treated as
end-of-stream. -/
theorem pagination_echo_never_terminates :
    paginateTerminates echoServer = False :=
  eq_false (by
    rintro ⟨fuel, hf⟩
    rw [paginate_echo_none] at hf
    simp at hf)

/-- C9 (amended): the loop exits only through a fault, a `next` of `None`,
or — equivalently — any strictly decreasing cursor measure; when every
followed cursor strictly decreases some measure, the loop terminates within
`measure(start) + 1` pages. -/
theorem paginate_terminates_of_decreasing_cursor :
    ∀ (server : String → PageResp Highlight) (measure : String → Nat)
      (url : String) (acc : List Highlight),
      (∀ u xs v, server u = PageResp.ok xs (some v) → measure v < measure u) →
      (paginate server (measure url + 1) url acc).isSome = true := by
  intro server measure url acc hdec
  suffices H : ∀ fuel url acc, measure url < fuel →
      (paginate server fuel url acc).isSome = true by
    exact H (measure url + 1) url acc (Nat.lt_succ_self _)
  intro fuel
  induction fuel with
  | zero =>
    intro url acc h
    omega
  | succ n ih =>
    intro url acc hlt
    cases hs : server url with
    | connError => simp [paginate, hs]
    | failStatus c => simp [paginate, hs]
    | ok results nxt =>
      cases nxt with
      | none => simp [paginate, hs]
      | some v =>
        simp only [paginate, hs]
        exact ih v (acc ++ results) (by have := hdec url results v hs; omega)

/-- A two-page server: the initial URL points at `"page2"`, which is final. -/
def twoPageServer : String → PageResp Highlight :=
  fun url =>
    if url = "https://readwise.io/api/v2/highlights/" then
      PageResp.ok [] (some "page2")
    else PageResp.ok [] none

/-- A cursor measure that the two-page server strictly decreases. -/
def twoPageMeasure : String → Nat :=
  fun url => if url = "https://readwise.io/api/v2/highlights/" then 1 else 0

/-- Concrete instantiation of `paginate_terminates_of_decreasing_cursor`. -/
theorem paginate_terminates_of_decreasing_cursor_witness :
    (paginate twoPageServer
        (twoPageMeasure "https://readwise.io/api/v2/highlights/" + 1)
        "https://readwise.io/api/v2/highlights/" []).isSome = true :=
  paginate_terminates_of_decreasing_cursor twoPageServer twoPageMeasure
    "https://readwise.io/api/v2/highlights/" []
    (by
      intro u xs v hserv
      by_cases hu : u = "https://readwise.io/api/v2/highlights/"
      · subst hu
        simp only [twoPageServer, if_pos] at hserv
        injection hserv with h1 h2
        injection h2 with h3
        subst h3
        decide
      · simp [twoPageServer, hu] at hserv)

theorem addToBucket_ne_nil (bs : List (String × List Highlight)) (key : String)
    (h : Highlight) : addToBucket bs key h ≠ [] := by
  cases bs with
  | nil => simp [addToBucket]
  | cons p rest =>
    obtain ⟨k, hs⟩ := p
    simp only [addToBucket]
    split <;> simp

theorem foldl_addToBucket_ne_nil :
    ∀ (t : List Highlight) (acc : List (String × List Highlight)),
      acc ≠ [] →
      List.foldl (fun b h => addToBucket b (highlightBucketKey h) h) acc t ≠ [] := by
  intro t
  induction t with
  | nil =>
    intro acc hacc
    exact hacc
  | cons a t ih =>
    intro acc _
    exact ih _ (addToBucket_ne_nil acc (highlightBucketKey a) a)

theorem build_time_buckets_ne_nil (hs : List Highlight) (hne : hs ≠ []) :
    build_time_buckets hs ≠ [] := by
  cases hs with
  | nil => exact absurd rfl hne
  | cons a t =>
    exact foldl_addToBucket_ne_nil t _
      (addToBucket_ne_nil [] (highlightBucketKey a) a)

theorem addToBucket_keys (key : String) (h : Highlight) :
    ∀ bs : List (String × List Highlight),
      (addToBucket bs key h).map Prod.fst =
        if key ∈ bs.map Prod.fst then bs.map Prod.fst
        else bs.map Prod.fst ++ [key] := by
  intro bs
  induction bs with
  | nil => simp [addToBucket]
  | cons p rest ih =>
    obtain ⟨k, l⟩ := p
    by_cases hk : k = key
    · subst hk
      simp [addToBucket]
    · simp only [addToBucket, if_neg hk, List.map_cons, ih]
      by_cases hmem : key ∈ rest.map Prod.fst
      · simp [hmem, Ne.symm hk]
      · simp [hmem, Ne.symm hk]

theorem addToBucket_keys_nodup (bs : List (String × List Highlight))
    (key : String) (h : Highlight) (hnd : (bs.map Prod.fst).Nodup) :
    ((addToBucket bs key h).map Prod.fst).Nodup := by
  rw [addToBucket_keys]
  by_cases hmem : key ∈ bs.map Prod.fst
  · simpa [hmem] using hnd
  · simp [hmem, List.nodup_append, hnd]

theorem build_time_buckets_keys_nodup (hs : List Highlight) :
    ((build_time_buckets hs).map Prod.fst).Nodup := by
  suffices H : ∀ (t : List Highlight) (acc : List (String × List Highlight)),
      (acc.map Prod.fst).Nodup →
      ((List.foldl (fun b h => addToBucket b (highlightBucketKey h) h) acc t).map
        Prod.fst).Nodup by
    exact H hs [] (by simp)
  intro t
  induction t with
  | nil =>
    intro acc hacc
    exact hacc
  | cons a t ih =>
    intro acc hacc
    exact ih _ (addToBucket_keys_nodup acc (highlightBucketKey a) a hacc)

theorem addToBucket_snd_ne_nil (bs : List (String × List Highlight))
    (key : String) (h : Highlight)
    (hbs : ∀ p ∈ bs, p.2 ≠ []) :
    ∀ p ∈ addToBucket bs key h, p.2 ≠ [] := by
  induction bs with
  | nil =>
    intro p hp
    simp only [addToBucket, List.mem_singleton] at hp
    subst hp
    simp
  | cons q rest ih =>
    obtain ⟨k, l⟩ := q
    intro p hp
    simp only [addToBucket] at hp
    split at hp
    · rcases List.mem_cons.mp hp with hp | hp
      · subst hp
        have := hbs (k, l) (List.mem_cons_self _ _)
        simp
      · exact hbs p (List.mem_cons_of_mem _ hp)
    · rcases List.mem_cons.mp hp with hp | hp
      · subst hp
        exact hbs (k, l) (List.mem_cons_self _ _)
      · exact ih (fun q hq => hbs q (List.mem_cons_of_mem _ hq)) p hp

theorem build_time_buckets_snd_ne_nil (hs : List Highlight) :
    ∀ p ∈ build_time_buckets hs, p.2 ≠ [] := by
  suffices H : ∀ (t : List Highlight) (acc : List (String × List Highlight)),
      (∀ p ∈ acc, p.2 ≠ []) →
      ∀ p ∈ List.foldl (fun b h => addToBucket b (highlightBucketKey h) h) acc t,
        p.2 ≠ [] by
    exact H hs [] (by simp)
  intro t
  induction t with
  | nil =>
    intro acc hacc
    exact hacc
  | cons a t ih =>
    intro acc hacc
    exact ih _ (addToBucket_snd_ne_nil acc (highlightBucketKey a) a hacc)

theorem mem_addToBucket_self (key : String) (h : Highlight) :
    ∀ bs : List (String × List Highlight),
      ∃ l, (key, l) ∈ addToBucket bs key h ∧ h ∈ l := by
  intro bs
  induction bs with
  | nil => exact ⟨[h], by simp [addToBucket]⟩
  | cons p rest ih =>
    obtain ⟨k, l⟩ := p
    by_cases hk : k = key
    · subst hk
      exact ⟨l ++ [h], by simp [addToBucket]⟩
    · rcases ih with ⟨l2, hmem, hin⟩
      exact ⟨l2, by simp [addToBucket, hk, hmem], hin⟩

theorem mem_addToBucket_mono (key : String) (h : Highlight) (k : String)
    (x : Highlight) :
    ∀ bs : List (String × List Highlight),
      (∃ l, (k, l) ∈ bs ∧ x ∈ l) →
      ∃ l2, (k, l2) ∈ addToBucket bs key h ∧ x ∈ l2 := by
  intro bs
  induction bs with
  | nil =>
    rintro ⟨l, hl, _⟩
    simp at hl
  | cons p rest ih =>
    obtain ⟨k0, l0⟩ := p
    rintro ⟨l, hl, hx⟩
    rcases List.mem_cons.mp hl with hl | hl
    · injection hl with hk0 hl0
      subst hk0
      subst hl0
      by_cases hkey : k = key
      · subst hkey
        exact ⟨l ++ [h], by simp [addToBucket], List.mem_append_left _ hx⟩
      · exact ⟨l, by simp [addToBucket, hkey], hx⟩
    · by_cases hkey : k0 = key
      · subst hkey
        exact ⟨l, by simp [addToBucket, hl], hx⟩
      · rcases ih ⟨l, hl, hx⟩ with ⟨l2, hl2, hx2⟩
        exact ⟨l2, by simp [addToBucket, hkey, hl2], hx2⟩

theorem foldl_addToBucket_mono (k : String) (x : Highlight) :
    ∀ (t : List Highlight) (acc : List (String × List Highlight)),
      (∃ l, (k, l) ∈ acc ∧ x ∈ l) →
      ∃ l2, (k, l2) ∈
          List.foldl (fun b h => addToBucket b (highlightBucketKey h) h) acc t ∧
        x ∈ l2 := by
  intro t
  induction t with
  | nil =>
    intro acc hacc
    exact hacc
  | cons a t ih =>
    intro acc hacc
    exact ih _ (mem_addToBucket_mono (highlightBucketKey a) a k x acc hacc)

theorem build_time_buckets_mem (hs : List Highlight) (h : Highlight)
    (hmem : h ∈ hs) :
    ∃ l, (highlightBucketKey h, l) ∈ build_time_buckets hs ∧ h ∈ l := by
  suffices H : ∀ (t : List Highlight) (acc : List (String × List Highlight)),
      h ∈ t →
      ∃ l, (highlightBucketKey h, l) ∈
          List.foldl (fun b h => addToBucket b (highlightBucketKey h) h) acc t ∧
        h ∈ l by
    exact H hs [] hmem
  intro t
  induction t with
  | nil =>
    intro acc hacc
    simp at hacc
  | cons a t ih =>
    intro acc hacc
    rcases List.mem_cons.mp hacc with hacc | hacc
    · subst hacc
      exact foldl_addToBucket_mono _ h t _
        (mem_addToBucket_self (highlightBucketKey h) h acc)
    · exact ih _ hacc

theorem count_indices_nodup {β : Type} [DecidableEq β] (l : List β)
    (hnd : l.Nodup) (k : β) (hk : k ∈ l) :
    ((Finset.range l.length).filter
      (fun i => l.get? (i % l.length) = some k)).card = 1 := by
  rcases List.mem_iff_get.mp hk with ⟨⟨i, hi⟩, hgi⟩
  have hset : (Finset.range l.length).filter
      (fun j => l.get? (j % l.length) = some k) = {i} := by
    ext j
    simp only [Finset.mem_filter, Finset.mem_range, Finset.mem_singleton]
    constructor
    · rintro ⟨hj, hget⟩
      rw [Nat.mod_eq_of_lt hj] at hget
      rcases List.get?_eq_some.mp hget with ⟨hj2, hgetj⟩
      have heq : l.get ⟨j, hj2⟩ = l.get ⟨i, hi⟩ := by rw [hgetj, hgi]
      exact congrArg Fin.val ((List.Nodup.get_inj_iff hnd).mp heq)
    · rintro rfl
      exact ⟨hi, by
        rw [Nat.mod_eq_of_lt hi]
        exact List.get?_eq_some.mpr ⟨hi, hgi⟩⟩
  rw [hset, Finset.card_singleton]

/-- C3: age-normalized selection returns no selection on an empty list; on a
non-empty list every highlight is placed in the bucket named by its
quarter-year key (or `'no-date'`), the bucket is chosen by the injected
uniform index over the buckets present and the highlight by the second
injected uniform index within that bucket (always yielding a selection);
and for each bucket key present, exactly 1 of the `n` equally likely bucket
draws selects it — probability exactly `1/n`, independent of bucket sizes. -/
theorem age_normalized_selection_spec :
    (∀ b i f, age_normalized_random_selection [] b i f = none) ∧
    (∀ hs h, h ∈ hs →
      ∃ l, (highlightBucketKey h, l) ∈ build_time_buckets hs ∧ h ∈ l) ∧
    (∀ (hs : List Highlight) (b i f : Nat), hs ≠ [] →
      ∃ key bucket,
        (build_time_buckets hs).get? (b % (build_time_buckets hs).length)
          = some (key, bucket) ∧
        bucket ≠ [] ∧
        age_normalized_random_selection hs b i f
          = bucket.get? (i % bucket.length) ∧
        (age_normalized_random_selection hs b i f).isSome = true) ∧
    (∀ (hs : List Highlight) (k : String),
      k ∈ (build_time_buckets hs).map Prod.fst →
      ((Finset.range (build_time_buckets hs).length).filter
        (fun b => ((build_time_buckets hs).get?
            (b % (build_time_buckets hs).length)).map Prod.fst = some k)).card
        = 1) := by
  refine ⟨fun b i f => rfl, build_time_buckets_mem, ?_, ?_⟩
  · intro hs b i f hne
    have hbne := build_time_buckets_ne_nil hs hne
    have hlen : 0 < (build_time_buckets hs).length := List.length_pos.mpr hbne
    have hmod : b % (build_time_buckets hs).length
        < (build_time_buckets hs).length := Nat.mod_lt _ hlen
    have hget := List.get?_eq_get hmod
    set pair := (build_time_buckets hs).get
      ⟨b % (build_time_buckets hs).length, hmod⟩ with hpair
    have hb2ne : pair.2 ≠ [] :=
      build_time_buckets_snd_ne_nil hs pair (List.get_mem _ _ _)
    have hb2len : 0 < pair.2.length := List.length_pos.mpr hb2ne
    have heqsel : age_normalized_random_selection hs b i f
        = pair.2.get? (i % pair.2.length) := by
      simp only [age_normalized_random_selection, List.isEmpty_eq_true, hne,
        if_false, hbne, listChoice, hget]
    refine ⟨pair.1, pair.2, ?_, hb2ne, heqsel, ?_⟩
    · rw [hget]
    · rw [heqsel, List.get?_eq_get (Nat.mod_lt _ hb2len)]
      rfl
  · intro hs k hk
    have hnd := build_time_buckets_keys_nodup hs
    have hcount := count_indices_nodup ((build_time_buckets hs).map Prod.fst)
      hnd k hk
    rw [List.length_map] at hcount
    have hpred : ∀ b : Nat, ((build_time_buckets hs).map Prod.fst).get?
        (b % (build_time_buckets hs).length)
        = ((build_time_buckets hs).get?
            (b % (build_time_buckets hs).length)).map Prod.fst :=
      fun b => List.get?_map _ _ _
    simp only [hpred] at hcount
    exact hcount

/-- A highlight the spec's noise filter would exclude: its note contains the
marker phrase (in different case), and its text passes the quality filter. -/
def noiseHighlight : Highlight :=
  { id := some 10, book_id := none,
    text := some "Welcome to your weekly digest of saved wisdom.",
    note := some "Curated BY READWISE TEAM with love",
    created_at := none, location := none, tags := [] }

/-- C1 counterexample: a run whose only quality-surviving highlight matches
the spec's noise pattern does not end in a `NoneAfterNoiseFilter` failure —
the highlight is selected and sent, and the run returns success. -/
theorem noise_filter_counterexample :
    spec_noise_excluded noiseHighlight = true ∧
    select_and_send_random_highlight ⟨none, false⟩
        [PageResp.ok [noiseHighlight] none] [PageResp.ok [] none]
        ⟨2024, 1, 19720⟩ 0 0 0 [PostResp.success] = Except.ok true := by
  exact ⟨by decide, rfl⟩

/-- C1 (amended): the pipeline applies no noise filter.  Whatever a
surviving highlight's text, note or book author contain, the selection stage
draws directly from the quality-filtered (post-date-filter) list — there is
no stage between the quality filter and selection and no
`NoneAfterNoiseFilter` outcome — and (with no stored book for it) the run
proceeds to the send step. -/
theorem no_noise_filter_stage :
    ∀ (cfg : RunConfig) (hResp : List (PageResp Highlight))
      (bRest : List (PageResp Book)) (now : PyDateTime) (c : Nat)
      (post : List PostResp) (h : Highlight),
      cfg.age_random = false →
      listChoice (pipeline_survivors cfg now
          (get_readwise_highlights hResp none)) c = some h →
      select_and_send_random_highlight cfg hResp (PageResp.connError :: bRest)
          now 0 0 c post = Except.ok (send_to_slack post) ∧
        pipeline_survivors cfg now (get_readwise_highlights hResp none)
          = filter_highlights_by_quality
              (filter_highlights_by_date cfg.date_filter now
                (get_readwise_highlights hResp none)) := by
  intro cfg hResp bRest now c post h hage hsel
  constructor
  · exact run_reaches_send_of_books_empty cfg hResp
      (PageResp.connError :: bRest) now c post h rfl hage hsel
  · obtain ⟨df, ar⟩ := cfg
    cases df <;> rfl

/-- Concrete instantiation of `no_noise_filter_stage` at the spec-noisy
highlight. -/
theorem no_noise_filter_stage_witness :
    select_and_send_random_highlight ⟨none, false⟩
        [PageResp.ok [noiseHighlight] none] (PageResp.connError :: [])
        ⟨2024, 1, 19720⟩ 0 0 0 [PostResp.success]
      = Except.ok (send_to_slack [PostResp.success]) ∧
      pipeline_survivors ⟨none, false⟩ ⟨2024, 1, 19720⟩
          (get_readwise_highlights [PageResp.ok [noiseHighlight] none] none)
        = filter_highlights_by_quality
            (filter_highlights_by_date none ⟨2024, 1, 19720⟩
              (get_readwise_highlights [PageResp.ok [noiseHighlight] none] none)) :=
  no_noise_filter_stage ⟨none, false⟩ [PageResp.ok [noiseHighlight] none] []
    ⟨2024, 1, 19720⟩ 0 [PostResp.success] noiseHighlight rfl rfl

/-- A full book record as the books endpoint returns it. -/
def demoBook : Book :=
  { id := 1, title := "Atomic Habits", author := some "James Clear",
    category := some "books", source_url := some "https://example.com/ah",
    cover_image_url := some "https://example.com/ah.jpg" }

/-- A quality highlight that references `demoBook`. -/
def demoHighlightWithBook : Highlight :=
  { id := some 7, book_id := some 1,
    text := some "Habits are the compound interest of self-improvement.",
    note := none, created_at := none, location := none, tags := [] }

/-- C2 (code bug): the books fetch keeps only `book["title"]` per id, not the
full record, so when the selected highlight's book *is* found the code calls
`.get` on a `str` and the run dies with `AttributeError`; only the
absent-book path degrades to "Unknown Book" and succeeds. -/
theorem book_lookup_bug :
    get_readwise_books [PageResp.ok [demoBook] none] = [(1, "Atomic Habits")] ∧
    bookTitleLookup (booksGet [(1, "Atomic Habits")] (some 1))
      = Except.error "AttributeError: str object has no attribute get" ∧
    select_and_send_random_highlight ⟨none, false⟩
        [PageResp.ok [demoHighlightWithBook] none] [PageResp.ok [demoBook] none]
        ⟨2024, 1, 19720⟩ 0 0 0 [PostResp.success]
      = Except.error "AttributeError: str object has no attribute get" ∧
    select_and_send_random_highlight ⟨none, false⟩
        [PageResp.ok [demoHighlightWithBook] none] [PageResp.ok [] none]
        ⟨2024, 1, 19720⟩ 0 0 0 [PostResp.success]
      = Except.ok true := by
  exact ⟨rfl, rfl, rfl, rfl⟩
